import Mathlib

/-!
Verification development for the pool evaluation and ranking pipeline of
`memecoin_bot.py`.

The Python source is shallowly embedded: dynamically typed Python values
become the inductive type `Py`; Python floats become the extended rationals
`Flt` (an idealization of IEEE doubles: exact rational arithmetic, with
positive and negative infinity; NaN is not modelled, and none of the
claims depends on it); code that can raise returns `Option` (`Option.none`
models an escaping exception); the wall clock read by `datetime.now` is an
explicit parameter `now` (seconds since the Unix epoch).  The network
fetches (`fetch_json`, lines 42-45) are external I/O; the pure record
processing that follows each fetch (lines 83-90 and 131-147) is embedded
on the already-fetched JSON value.
-/

namespace MemecoinBot

attribute [local semireducible] Rat.add Rat.mul Rat.sub Rat.inv Rat.ofScientific

/-- Extended rationals modelling Python floats (NaN unmodelled). -/
inductive Flt where
  | fin (q : ℚ)
  | inf
  | ninf
deriving DecidableEq

/-- Comparison `<=` on Python floats. -/
def Flt.le : Flt → Flt → Bool
  | .ninf, _ => true
  | .inf, .inf => true
  | .inf, _ => false
  | .fin _, .inf => true
  | .fin _, .ninf => false
  | .fin a, .fin b => decide (a ≤ b)

/-- Comparison `<` on Python floats. -/
def Flt.lt : Flt → Flt → Bool
  | .ninf, .ninf => false
  | .ninf, _ => true
  | .inf, _ => false
  | .fin _, .inf => true
  | .fin _, .ninf => false
  | .fin a, .fin b => decide (a < b)

/-- Addition of Python floats.  `inf + (-inf)` is NaN in Python; it is
mapped to `fin 0` here and never relied upon by any theorem. -/
def Flt.add : Flt → Flt → Flt
  | .inf, .ninf => .fin 0
  | .ninf, .inf => .fin 0
  | .inf, _ => .inf
  | _, .inf => .inf
  | .ninf, _ => .ninf
  | _, .ninf => .ninf
  | .fin a, .fin b => .fin (a + b)

/-- Python values, restricted to the JSON-like shapes the bot consumes. -/
inductive Py where
  | none
  | bool (b : Bool)
  | int (n : ℤ)
  | float (x : Flt)
  | str (s : String)
  | list (xs : List Py)
  | dict (kvs : List (String × Py))

/-- Python truthiness (`bool(x)`). -/
def pyBool : Py → Bool
  | .none => false
  | .bool b => b
  | .int n => decide (n ≠ 0)
  | .float x => decide (x ≠ .fin 0)
  | .str s => decide (s ≠ "")
  | .list [] => false
  | .list (_ :: _) => true
  | .dict [] => false
  | .dict (_ :: _) => true

/-- Python `x == s` for a string constant `s`: only equal strings compare
equal (no other value of the shapes above equals a `str`). -/
def pyEqStr (p : Py) (s : String) : Bool :=
  match p with
  | .str t => t == s
  | _ => false

/-- Numeric view of a Python value (the types `int <= ... <= MIN` style
comparisons accept: bool, int, float).  `Option.none` means a comparison
with a number raises `TypeError`. -/
def pyNumVal : Py → Option Flt
  | .bool b => some (.fin (if b then 1 else 0))
  | .int n => some (.fin (n : ℚ))
  | .float x => some x
  | _ => Option.none

/-- Digits of a decimal numeral folded into a natural number. -/
def natOfDigits (ds : List Char) : ℕ :=
  ds.foldl (fun a c => a * 10 + (c.toNat - 48)) 0

/-- Core of Python float-literal parsing: an unsigned mantissa with
optional fraction and optional exponent (underscore separators are not
modelled). -/
def parseFloatCore (cs : List Char) : Option ℚ :=
  let ip := cs.takeWhile Char.isDigit
  let rest := cs.dropWhile Char.isDigit
  let fracRes : Option (List Char × List Char) :=
    match rest with
    | '.' :: r => some (r.takeWhile Char.isDigit, r.dropWhile Char.isDigit)
    | r => some ([], r)
  match fracRes with
  | Option.none => Option.none
  | some (fp, rest2) =>
    if ip = [] ∧ fp = [] then Option.none else
    let mant : ℚ := (natOfDigits ip : ℚ) + (natOfDigits fp : ℚ) / 10 ^ fp.length
    match rest2 with
    | [] => some mant
    | e :: r =>
      if e = 'e' ∨ e = 'E' then
        let signRes : Bool × List Char :=
          match r with
          | '+' :: t => (false, t)
          | '-' :: t => (true, t)
          | t => (false, t)
        let ed := signRes.2.takeWhile Char.isDigit
        if ed = [] ∨ signRes.2.dropWhile Char.isDigit ≠ [] then Option.none
        else if signRes.1 then some (mant / 10 ^ natOfDigits ed)
        else some (mant * 10 ^ natOfDigits ed)
      else Option.none

/-- Python `float(string)`: strip whitespace, optional sign, then either
an infinity literal or a decimal literal ("nan" is unmodelled). -/
def parsePyFloat (s : String) : Option Flt :=
  let cs := ((s.toList.dropWhile Char.isWhitespace).reverse.dropWhile
    Char.isWhitespace).reverse
  let signRes : Bool × List Char :=
    match cs with
    | '+' :: t => (false, t)
    | '-' :: t => (true, t)
    | t => (false, t)
  let low := signRes.2.map Char.toLower
  if low = "inf".toList ∨ low = "infinity".toList then
    some (if signRes.1 then .ninf else .inf)
  else
    (parseFloatCore signRes.2).map fun q =>
      .fin (if signRes.1 then -q else q)

/-- Python `float(x)` on an arbitrary value; `Option.none` is a raised
`TypeError`/`ValueError`. -/
def pyFloat : Py → Option Flt
  | .bool b => some (.fin (if b then 1 else 0))
  | .int n => some (.fin (n : ℚ))
  | .float x => some x
  | .str s => parsePyFloat s
  | _ => Option.none

/-- Line 27-31: `usd(x)` returns `float(x) if x else 0.0`, with every
exception swallowed into `0.0`.  Totality of this Lean function is the
never-raises guarantee. -/
def usd (x : Py) : Flt :=
  if pyBool x then (pyFloat x).getD (.fin 0) else .fin 0

/-- Parsed timestamp: a `datetime` without its timezone info. -/
structure DT where
  year : ℕ
  month : ℕ
  day : ℕ
  hour : ℕ
  minute : ℕ
  second : ℕ
  frac : ℚ
deriving DecidableEq

/-- Leap-year test of the Gregorian calendar. -/
def isLeapYear (y : ℕ) : Bool :=
  y % 4 = 0 && (y % 100 ≠ 0 || y % 400 = 0)

/-- Number of days of month `m` of year `y`. -/
def daysInMonth (y m : ℕ) : ℕ :=
  if m = 2 then (if isLeapYear y then 29 else 28)
  else if m = 4 ∨ m = 6 ∨ m = 9 ∨ m = 11 then 30
  else 31

/-- Days from the Unix epoch to the civil date `y-m-d` (valid for
`1 ≤ y`, the range `datetime` accepts). -/
def daysFromCivil (y m d : ℕ) : ℤ :=
  let yy := if m ≤ 2 then y - 1 else y
  let era := yy / 400
  let yoe := yy % 400
  let mp := if 2 < m then m - 3 else m + 9
  let doy := (153 * mp + 2) / 5 + d - 1
  let doe := yoe * 365 + yoe / 4 - yoe / 100 + doy
  ((era * 146097 + doe : ℕ) : ℤ) - 719468

/-- Read exactly `n` decimal digits, returning their value and the rest. -/
def readNDigits : ℕ → List Char → Option (ℕ × List Char)
  | 0, cs => some (0, cs)
  | n + 1, c :: cs =>
    if c.isDigit then
      (readNDigits n cs).map fun r => ((c.toNat - 48) * 10 ^ n + r.1, r.2)
    else Option.none
  | _ + 1, [] => Option.none

/-- Consume one expected character. -/
def expectChar (c : Char) : List Char → Option (List Char)
  | d :: rest => if d = c then some rest else Option.none
  | [] => Option.none

/-- Read the time component `HH[:MM[:SS[.ffff]]]` (the colon-separated
forms `isoparse` accepts; the compact colon-free forms are not
modelled). -/
def readTime (cs : List Char) : Option ((ℕ × ℕ × ℕ × ℚ) × List Char) := do
  let (h, cs) ← readNDigits 2 cs
  if 23 < h then Option.none else
  match expectChar ':' cs with
  | Option.none => some ((h, 0, 0, 0), cs)
  | some cs => do
    let (mi, cs) ← readNDigits 2 cs
    if 59 < mi then Option.none else
    match expectChar ':' cs with
    | Option.none => some ((h, mi, 0, 0), cs)
    | some cs => do
      let (sec, cs) ← readNDigits 2 cs
      if 59 < sec then Option.none else
      match cs with
      | '.' :: r | ',' :: r =>
        let ds := r.takeWhile Char.isDigit
        if ds = [] then Option.none
        else
          some ((h, mi, sec, (natOfDigits ds : ℚ) / 10 ^ ds.length),
            r.dropWhile Char.isDigit)
      | _ => some ((h, mi, sec, 0), cs)

/-- Read a UTC offset `Z`, `±HH`, `±HHMM` or `±HH:MM`, in minutes. -/
def readOffsetMag (cs : List Char) : Option (ℕ × List Char) := do
  let (h, cs) ← readNDigits 2 cs
  if 23 < h then Option.none else
  match expectChar ':' cs with
  | some cs2 => do
    let (m, cs3) ← readNDigits 2 cs2
    if 59 < m then Option.none else some (h * 60 + m, cs3)
  | Option.none =>
    match readNDigits 2 cs with
    | some (m, cs3) => if 59 < m then Option.none else some (h * 60 + m, cs3)
    | Option.none => some (h * 60, cs)

/-- Signed UTC offset in minutes. -/
def readOffset : List Char → Option (ℤ × List Char)
  | 'Z' :: cs => some (0, cs)
  | 'z' :: cs => some (0, cs)
  | '+' :: cs => (readOffsetMag cs).map fun r => ((r.1 : ℤ), r.2)
  | '-' :: cs => (readOffsetMag cs).map fun r => (-(r.1 : ℤ), r.2)
  | _ => Option.none

/-- Line 3/35: `dateutil.parser.isoparse`, modelled on the canonical
ISO-8601 forms `YYYY-MM-DD[THH[:MM[:SS[.ffff]]][offset]]` (the
abbreviated date forms `isoparse` additionally accepts are not
modelled).  Returns the parsed fields and the offset in minutes, or
`Option.none` for a raised `ValueError`. -/
def isoparse (s : String) : Option (DT × Option ℤ) := do
  let cs := s.toList
  let (y, cs) ← readNDigits 4 cs
  let cs ← expectChar '-' cs
  let (mo, cs) ← readNDigits 2 cs
  let cs ← expectChar '-' cs
  let (d, cs) ← readNDigits 2 cs
  if y = 0 ∨ mo = 0 ∨ 12 < mo ∨ d = 0 ∨ daysInMonth y mo < d then Option.none else
  match cs with
  | [] => some (⟨y, mo, d, 0, 0, 0, 0⟩, Option.none)
  | 'T' :: cs => do
    let ((h, mi, sec, fr), cs) ← readTime cs
    match cs with
    | [] => some (⟨y, mo, d, h, mi, sec, fr⟩, Option.none)
    | cs => do
      let (off, cs) ← readOffset cs
      if cs = [] then some (⟨y, mo, d, h, mi, sec, fr⟩, some off) else Option.none
  | _ => Option.none

/-- Seconds from the Unix epoch of a parsed timestamp at offset
`offMinutes`. -/
def epochSeconds (d : DT) (offMinutes : ℤ) : ℚ :=
  ((daysFromCivil d.year d.month d.day : ℤ) : ℚ) * 86400 + (d.hour : ℚ) * 3600
    + (d.minute : ℚ) * 60 + (d.second : ℚ) + d.frac - (offMinutes : ℚ) * 60

/-- Lines 33-40: `hours_since(dt_iso)`.  `now` is the value of
`datetime.now(timezone.utc)` in epoch seconds.  A timestamp without an
offset gets `tzinfo = timezone.utc` (line 36-37); any exception —
including a non-string argument — yields `math.inf`. -/
def hours_since (now : ℚ) (dtIso : Py) : Flt :=
  match dtIso with
  | .str s =>
    match isoparse s with
    | some (d, off) => .fin ((now - epochSeconds d (off.getD 0)) / 3600)
    | Option.none => .inf
  | _ => .inf

/-- First binding of a key in a Python dict (keys are assumed unique, as
Python dict literals and JSON objects keep one value per key). -/
def pyDictGet : List (String × Py) → String → Option Py
  | [], _ => Option.none
  | (k, v) :: rest, key => if k = key then some v else pyDictGet rest key

/-- Python `p.get(key, dflt)`: `Option.none` is the `AttributeError`
raised when the receiver is not a dict. -/
def pyGet (p : Py) (key : String) (dflt : Py) : Option Py :=
  match p with
  | .dict kvs => some ((pyDictGet kvs key).getD dflt)
  | _ => Option.none

/-- Python `p[key]`: `Option.none` is a `KeyError`/`TypeError`. -/
def pyIndex (p : Py) (key : String) : Option Py :=
  match p with
  | .dict kvs => pyDictGet kvs key
  | _ => Option.none

/-- Python `for item in p`: lists yield elements, strings yield
one-character strings, dicts yield their keys; other values raise
`TypeError` (`Option.none`). -/
def pyIter : Py → Option (List Py)
  | .list xs => some xs
  | .str s => some (s.toList.map fun c => .str (String.mk [c]))
  | .dict kvs => some (kvs.map fun kv => .str kv.1)
  | _ => Option.none

/-- Python `a + b` on the modelled value shapes: numeric addition with
bools as 0/1, string and list concatenation; everything else raises
`TypeError` (`Option.none`). -/
def pyAdd : Py → Py → Option Py
  | .int a, .int b => some (.int (a + b))
  | .bool a, .bool b => some (.int ((if a then 1 else 0) + (if b then 1 else 0)))
  | .bool a, .int b => some (.int ((if a then 1 else 0) + b))
  | .int a, .bool b => some (.int (a + (if b then 1 else 0)))
  | .float x, .float y => some (.float (Flt.add x y))
  | .float x, .int b => some (.float (Flt.add x (.fin (b : ℚ))))
  | .int a, .float y => some (.float (Flt.add (.fin (a : ℚ)) y))
  | .float x, .bool b => some (.float (Flt.add x (.fin (if b then 1 else 0))))
  | .bool a, .float y => some (.float (Flt.add (.fin (if a then 1 else 0)) y))
  | .str s, .str t => some (.str (s ++ t))
  | .list xs, .list ys => some (.list (xs ++ ys))
  | _, _ => Option.none

/-- Python `v or 0`. -/
def orZero (v : Py) : Py :=
  if pyBool v then v else .int 0

/-- Zero-padding of a numeral on the left to `n` characters. -/
def padZeros (s : String) (n : ℕ) : String :=
  String.mk (List.replicate (n - s.length) '0') ++ s

/-- Splitting of a reversed numeral into groups of three. -/
def chunk3 : List Char → List (List Char)
  | [] => []
  | a :: b :: c :: rest@(_ :: _) => [a, b, c] :: chunk3 rest
  | l => [l]

/-- Grouping of an integer numeral in threes with commas, as in the
Python format spec `","`. -/
def commaGroup (s : String) : String :=
  String.mk (List.intercalate [','] ((chunk3 s.toList.reverse).map
    List.reverse).reverse)

/-- Python fixed-point formatting `format(x, ",.Nf")`.  Idealization: the
rounding of the exact rational is half-up, where CPython rounds the
nearest binary double half-to-even; no claim depends on the digits this
produces. -/
def fmtFixed (x : Flt) (prec : ℕ) (comma : Bool) : String :=
  match x with
  | .inf => "inf"
  | .ninf => "-inf"
  | .fin q =>
    let neg : Bool := decide (q < 0)
    let scaled : ℕ := (Rat.floor (|q| * 10 ^ prec + 1 / 2)).toNat
    let ip := scaled / 10 ^ prec
    let fp := scaled % 10 ^ prec
    let ips := if comma then commaGroup (toString ip) else toString ip
    (if neg then "-" else "") ++ ips ++
      (if prec = 0 then "" else "." ++ padZeros (toString fp) prec)

/-- Python `str(float)`, idealized: integral values print as `n.0`, other
values with up to twelve fractional digits (CPython prints the shortest
round-tripping digits of the binary double; no claim depends on these
digits). -/
def fltRepr : Flt → String
  | .inf => "inf"
  | .ninf => "-inf"
  | .fin q =>
    if q.den = 1 then toString q.num ++ ".0"
    else
      let neg : Bool := decide (q < 0)
      let ip := (Rat.floor |q|).toNat
      let fracN := (Rat.floor ((|q| - (ip : ℚ)) * 10 ^ 12)).toNat
      let fs := String.mk ((padZeros (toString fracN) 12).toList.reverse.dropWhile
        (· = '0')).reverse
      (if neg then "-" else "") ++ toString ip ++ "." ++
        (if fs = "" then "0" else fs)

/-- Python `str(x)` on the value shapes the bot can display (container
reprs are abbreviated; the bot never displays containers). -/
def pyStr : Py → String
  | .none => "None"
  | .bool b => if b then "True" else "False"
  | .int n => toString n
  | .float x => fltRepr x
  | .str s => s
  | .list _ => "[...]"
  | .dict _ => "\x7b...\x7d"

/-- Lines 13-16: the four eligibility thresholds. -/
def MIN_LIQ_USD : ℚ := 3000

/-- Line 14: minimum hourly transactions. -/
def MIN_1H_TXNS : ℚ := 20

/-- Line 15: maximum fully diluted value. -/
def MAX_FDV_USD : ℚ := 20000000

/-- Line 16: maximum pool age in hours. -/
def MAX_POOL_AGE_HOURS : ℚ := 48

/-- The metrics dict built on line 69:
`{"fdv": fdv, "liq": liq, "txs": txs, "age": age_h}`.  `fdv`, `liq` and
`age` always come out of `usd`/`hours_since` as floats; `txs` is the raw
result of `buys + sells` and can be any Python value. -/
structure Metrics where
  fdv : Flt
  liq : Flt
  txs : Py
  age : Flt

/-- Lookup of an attribute with the `None` default of one-argument
`dict.get`. -/
def getAttr (akvs : List (String × Py)) (k : String) : Py :=
  (pyDictGet akvs k).getD .none

/-- Lines 47-69: `summarize_pool(p)`.  Returns the formatted text block
and the metrics dict; `Option.none` is an escaping exception
(`AttributeError` when `p` or a present `attributes` value has no
`.get` — a non-dict `attrs` fails at its first `.get` — or `TypeError`
from `buys + sells`). -/
def summarize_pool (now : ℚ) (p : Py) : Option (String × Metrics) :=
  match pyGet p "attributes" (.dict []) with
  | Option.none => Option.none
  | some (Py.dict akvs) =>
    let fdv := usd (getAttr akvs "fdv_usd")
    let liq := usd (getAttr akvs "reserve_in_usd")
    let price := usd (getAttr akvs "price_in_usd")
    let buys := orZero (getAttr akvs "buys_1h")
    let sells := orZero (getAttr akvs "sells_1h")
    match pyAdd buys sells with
    | Option.none => Option.none
    | some txs =>
      let age_h := hours_since now (getAttr akvs "pool_created_at")
      let base := getAttr akvs "base_token_symbol"
      let quote := getAttr akvs "quote_token_symbol"
      let url := getAttr akvs "url"
      let name := if pyBool (getAttr akvs "base_token_name") then
        getAttr akvs "base_token_name" else base
      let summary :=
        "• " ++ pyStr name ++ " (" ++ pyStr base ++ ") / " ++ pyStr quote ++
        "\n" ++
        "  Price: $" ++ fmtFixed price 8 true ++ "\n" ++
        "  Liquidity: $" ++ fmtFixed liq 0 true ++ " | FDV: $" ++
          fmtFixed fdv 0 true ++ "\n" ++
        "  1h: " ++ pyStr buys ++ " buys / " ++ pyStr sells ++ " sells (tx=" ++
          pyStr txs ++ ")\n" ++
        "  Age: " ++ fmtFixed age_h 1 false ++ "\n" ++
        "  Chart: " ++ pyStr url
      some (summary, ⟨fdv, liq, txs, age_h⟩)
  | some _ => Option.none

/-- Lines 71-77: `looks_like_memecoin(m)`, the eligibility filter.  The
`and`-chain is evaluated left to right; comparing a non-numeric `txs`
with `MIN_1H_TXNS` raises `TypeError` (`Option.none`), which can only be
reached when the liquidity check already passed. -/
def looks_like_memecoin (m : Metrics) : Option Bool :=
  if Flt.le (.fin MIN_LIQ_USD) m.liq then
    match pyNumVal m.txs with
    | some t =>
      some (Flt.le (.fin MIN_1H_TXNS) t && Flt.le m.fdv (.fin MAX_FDV_USD) &&
        Flt.le m.age (.fin MAX_POOL_AGE_HOURS))
    | Option.none => Option.none
  else some false

/-- Strict lexicographic comparison of the Python sort keys
`(x[0]["txs"], x[0]["liq"])` (line 89): tuples compare component-wise. -/
def keyLt (a b : Flt × Flt) : Bool :=
  if a.1 = b.1 then Flt.lt a.2 b.2 else Flt.lt a.1 b.1

/-- Sort key of one `(metrics, text)` result (line 89).  Every record
that survived the filter has numeric `txs` (the filter would have raised
otherwise), so the `getD` default is never exercised there. -/
def sortKey (x : Metrics × String) : Flt × Flt :=
  ((pyNumVal x.1.txs).getD (.fin 0), x.1.liq)

/-- Stable descending insertion: `x` is placed after every earlier
element whose key is greater than or equal to its own. -/
def insDesc (k : α → Flt × Flt) (x : α) : List α → List α
  | [] => [x]
  | y :: ys => if keyLt (k y) (k x) then x :: y :: ys else y :: insDesc k x ys

/-- Line 89: `results.sort(key=..., reverse=True)` — CPython sorts
stably; with `reverse=True` elements with equal keys keep their input
order. -/
def pySortDescBy (k : α → Flt × Flt) (l : List α) : List α :=
  l.foldl (fun acc x => insDesc k x acc) []

/-- Lines 85-88: summarize every fetched record and keep the eligible
ones, in source order; `Option.none` is an exception escaping from
`summarize_pool` or from the filter. -/
def collectEligible (now : ℚ) : List Py → Option (List (Metrics × String))
  | [] => some []
  | p :: ps => do
    let (text, m) ← summarize_pool now p
    let keep ← looks_like_memecoin m
    let rest ← collectEligible now ps
    some (if keep then (m, text) :: rest else rest)

/-- Lines 83-89 of `scan_geckoterminal`: the summarized, filtered and
sorted `results` list, given the fetched response envelope `data`. -/
def scanResults (now : ℚ) (data : Py) : Option (List (Metrics × String)) := do
  let pools ← pyGet data "data" (.list [])
  let items ← pyIter pools
  let results ← collectEligible now items
  some (pySortDescBy sortKey results)

/-- Lines 79-90: `scan_geckoterminal`, given the already-fetched JSON
envelope (the network fetch on lines 80-82 is external I/O; a transport
or HTTP error never reaches this code).  Line 90:
`[t for _, t in results][:10] or ["(no candidates found)"]`. -/
def scan_geckoterminal (now : ℚ) (data : Py) : Option (List String) := do
  let res ← scanResults now data
  let picks := (res.map Prod.snd).take 10
  some (if picks.isEmpty then ["(no candidates found)"] else picks)

/-- Line 134: `p.get("chainId") not in ("pulsechain", "pulse")`, negated. -/
def chainMatch (p : Py) : Option Bool := do
  let c ← pyGet p "chainId" .none
  some (pyEqStr c "pulsechain" || pyEqStr c "pulse")

/-- Lines 136-143: per-record extraction and formatting of one matching
search result; `Option.none` is an escaping exception (`KeyError` on a
missing `baseToken`/`quoteToken`/`symbol`, `AttributeError` on a
non-dict `liquidity`/`txns`, `TypeError` from `float(None)` or a bad
`+`). -/
def searchLineOf (p : Py) : Option String :=
  match p with
  | Py.dict pkvs =>
    match pyIndex (Py.dict pkvs) "baseToken" with
    | Option.none => Option.none
    | some bt =>
    match pyIndex bt "symbol" with
    | Option.none => Option.none
    | some base =>
    match pyIndex (Py.dict pkvs) "quoteToken" with
    | Option.none => Option.none
    | some qt =>
    match pyIndex qt "symbol" with
    | Option.none => Option.none
    | some quote =>
      let url := (pyDictGet pkvs "url").getD .none
      let liqD := (pyDictGet pkvs "liquidity").getD (.dict [])
      match pyGet liqD "usd" .none with
      | Option.none => Option.none
      | some liqV =>
        let liq := usd liqV
        let txns := (pyDictGet pkvs "txns").getD (.dict [])
        match pyGet txns "h1" (.dict []) with
        | Option.none => Option.none
        | some h1 =>
        match pyGet h1 "buys" (.int 0), pyGet h1 "sells" (.int 0) with
        | some buys, some sells =>
          match pyAdd buys sells with
          | Option.none => Option.none
          | some tx =>
            let price := (pyDictGet pkvs "priceUsd").getD .none
            match pyFloat price with
            | Option.none => Option.none
            | some priceF =>
              some ("• " ++ pyStr base ++ "/" ++ pyStr quote ++ "  $" ++
                fmtFixed priceF 8 true ++ "  Liq $" ++ fmtFixed liq 0 true ++
                "  tx/hr " ++ pyStr tx ++ "\n  " ++ pyStr url)
        | _, _ => Option.none
  | _ => Option.none

/-- Lines 133-143: the search loop over the fetched pairs, skipping
records whose chain identifier is not PulseChain and formatting the
rest in source order. -/
def searchLines : List Py → Option (List String)
  | [] => some []
  | p :: ps => do
    let m ← chainMatch p
    if m then do
      let line ← searchLineOf p
      let rest ← searchLines ps
      some (line :: rest)
    else searchLines ps

/-- Lines 131-147 of the `search` command, given the already-fetched
JSON envelope `js`: extract `js.get("pairs", [])`, build the matching
lines, and reply with the placeholder if none matched, otherwise with
the first ten lines. -/
def search (js : Py) : Option (List String) := do
  let pairs ← pyGet js "pairs" (.list [])
  let items ← pyIter pairs
  let lines ← searchLines items
  some (if lines.isEmpty then ["(no PulseChain results found)"]
    else lines.take 10)

/-- The ordering the sorted result satisfies: the earlier element's key
is not smaller than the later element's key. -/
def keyGE (k : α → Flt × Flt) (a b : α) : Prop := keyLt (k a) (k b) = false

/-- Boolean form of the chain-identifier test, defined for dict records
(the only records the search loop reaches past its `.get`). -/
def chainMatchB (p : Py) : Bool :=
  match pyGet p "chainId" .none with
  | some c => pyEqStr c "pulsechain" || pyEqStr c "pulse"
  | Option.none => false

/-- Test for a dict value. -/
def isDictB : Py → Bool
  | .dict _ => true
  | _ => false

/-- Per-record extraction applied to every record of a list in source
order, failing when any extraction fails. -/
def mapExtract : List Py → Option (List String)
  | [] => some []
  | p :: ps =>
    match searchLineOf p, mapExtract ps with
    | some line, some rest => some (line :: rest)
    | _, _ => Option.none

/-- Refinement target for C8, following the spec text: filter the fetched
records to the target chain, apply the per-record extraction to each
survivor in source order. -/
def searchLinesSpec (items : List Py) : Option (List String) :=
  mapExtract (items.filter chainMatchB)

/-! ### Concrete records used by witnesses and counterexamples -/

/-- An eligible pool record: liquidity 5000, 30 buys and 10 sells in the
hour, FDV 1000000, created at epoch + 24h. -/
def eligRec : Py := .dict [("attributes", .dict [
  ("base_token_symbol", .str "MEME"), ("quote_token_symbol", .str "WPLS"),
  ("base_token_name", .str "MemeCoin"), ("url", .str "u"),
  ("fdv_usd", .str "1000000"), ("reserve_in_usd", .str "5000"),
  ("price_in_usd", .str "0.5"), ("buys_1h", .int 30), ("sells_1h", .int 10),
  ("pool_created_at", .str "1970-01-02T00:00:00Z")])]

/-- An envelope with fifteen eligible records. -/
def data15 : Py := .dict [("data", .list (List.replicate 15 eligRec))]

/-- The sorted results list of the fifteen-record scan. -/
def res15 : List (Metrics × String) := (scanResults 93600 data15).getD []

/-- Record A of the C2 example: tx = 50, liquidity = 100. -/
def recA : Py := .dict [("attributes", .dict [("reserve_in_usd", .int 100),
  ("buys_1h", .int 25), ("sells_1h", .int 25),
  ("pool_created_at", .str "1970-01-02T00:00:00Z")])]

/-- Record B of the C2 example: tx = 50, liquidity = 200. -/
def recB : Py := .dict [("attributes", .dict [("reserve_in_usd", .int 200),
  ("buys_1h", .int 25), ("sells_1h", .int 25),
  ("pool_created_at", .str "1970-01-02T00:00:00Z")])]

/-- Record C of the C2 example: tx = 10, liquidity = 500. -/
def recC : Py := .dict [("attributes", .dict [("reserve_in_usd", .int 500),
  ("buys_1h", .int 5), ("sells_1h", .int 5),
  ("pool_created_at", .str "1970-01-02T00:00:00Z")])]

/-- The envelope holding the three C2 example records in source order. -/
def dataABC : Py := .dict [("data", .list [recA, recB, recC])]

/-- Eligible analogue of record A: tx = 50, liquidity = 3100. -/
def recA2 : Py := .dict [("attributes", .dict [("reserve_in_usd", .int 3100),
  ("buys_1h", .int 25), ("sells_1h", .int 25),
  ("pool_created_at", .str "1970-01-02T00:00:00Z")])]

/-- Eligible analogue of record B: tx = 50, liquidity = 3200. -/
def recB2 : Py := .dict [("attributes", .dict [("reserve_in_usd", .int 3200),
  ("buys_1h", .int 30), ("sells_1h", .int 20),
  ("pool_created_at", .str "1970-01-02T00:00:00Z")])]

/-- Eligible analogue of record C: tx = 25, liquidity = 5000. -/
def recC2 : Py := .dict [("attributes", .dict [("reserve_in_usd", .int 5000),
  ("buys_1h", .int 20), ("sells_1h", .int 5),
  ("pool_created_at", .str "1970-01-02T00:00:00Z")])]

/-- The pool list of the eligible analogues, in source order A, B, C. -/
def poolsABC2 : Py := .list [recA2, recB2, recC2]

/-- The envelope of the eligible analogues. -/
def dataABC2 : Py := .dict [("data", poolsABC2)]

/-- Metrics of `recA2` at `now = 93600`. -/
def mA2 : Metrics := ⟨.fin 0, .fin 3100, .int 50, .fin 2⟩

/-- Metrics of `recB2` at `now = 93600`. -/
def mB2 : Metrics := ⟨.fin 0, .fin 3200, .int 50, .fin 2⟩

/-- Metrics of `recC2` at `now = 93600`. -/
def mC2 : Metrics := ⟨.fin 0, .fin 5000, .int 25, .fin 2⟩

/-- The eligible records of `dataABC2`, before sorting. -/
def preABC2 : List (Metrics × String) :=
  (collectEligible 93600 [recA2, recB2, recC2]).getD []

/-- The sorted results of the `dataABC2` scan. -/
def resABC2 : List (Metrics × String) := (scanResults 93600 dataABC2).getD []

/-- A search record that is well-formed except that `priceUsd` is
absent, so `float(None)` raises on it. -/
def missingPriceRec : Py := .dict [("chainId", .str "pulsechain"),
  ("baseToken", .dict [("symbol", .str "AAA")]),
  ("quoteToken", .dict [("symbol", .str "BBB")]),
  ("url", .str "u"), ("liquidity", .dict [("usd", .int 5)])]

/-- A matching search record whose liquidity and transaction count fail
every eligibility threshold. -/
def lowLiqRec : Py := .dict [("chainId", .str "pulse"),
  ("baseToken", .dict [("symbol", .str "AAA")]),
  ("quoteToken", .dict [("symbol", .str "BBB")]),
  ("url", .str "u"), ("priceUsd", .str "1"),
  ("liquidity", .dict [("usd", .int 0)]),
  ("txns", .dict [("h1", .dict [("buys", .int 0), ("sells", .int 0)])])]

/-- A search record on another chain with all fields well-formed. -/
def ethRec : Py := .dict [("chainId", .str "ethereum"),
  ("baseToken", .dict [("symbol", .str "AAA")]),
  ("quoteToken", .dict [("symbol", .str "BBB")]),
  ("url", .str "u"), ("priceUsd", .str "1"),
  ("liquidity", .dict [("usd", .int 9)]),
  ("txns", .dict [("h1", .dict [("buys", .int 1), ("sells", .int 1)])])]

/-- A matching, fully well-formed search record. -/
def pulseRec : Py := .dict [("chainId", .str "pulsechain"),
  ("baseToken", .dict [("symbol", .str "DOGE")]),
  ("quoteToken", .dict [("symbol", .str "WPLS")]),
  ("url", .str "u"), ("priceUsd", .str "0.25"),
  ("liquidity", .dict [("usd", .int 7)]),
  ("txns", .dict [("h1", .dict [("buys", .int 3), ("sells", .int 4)])])]

/-! ### Order lemmas for the sort key -/

theorem Flt.lt_irr : ∀ a : Flt, Flt.lt a a = false
  | .fin _ => by simp [Flt.lt]
  | .inf => rfl
  | .ninf => rfl

theorem Flt.lt_asymm_bool : ∀ {a b : Flt}, Flt.lt a b = true → Flt.lt b a = false
  | .fin _, .fin _ => by
    simp only [Flt.lt, decide_eq_true_eq, decide_eq_false_iff_not]
    exact fun h => not_lt.mpr h.le
  | .fin _, .inf => fun _ => rfl
  | .ninf, .fin _ => fun _ => rfl
  | .ninf, .inf => fun _ => rfl
  | .ninf, .ninf => fun h => by simp [Flt.lt] at h
  | .inf, _ => fun h => by simp [Flt.lt] at h
  | .fin _, .ninf => fun h => by simp [Flt.lt] at h

theorem Flt.lt_trans_bool : ∀ {a b c : Flt},
    Flt.lt a b = true → Flt.lt b c = true → Flt.lt a c = true
  | .fin _, .fin _, .fin _ => by
    simp only [Flt.lt, decide_eq_true_eq]
    exact lt_trans
  | .fin _, .fin _, .inf => fun _ _ => rfl
  | .ninf, .fin _, .fin _ => fun _ _ => rfl
  | .ninf, .fin _, .inf => fun _ _ => rfl
  | .ninf, .ninf, _ => fun h _ => by simp [Flt.lt] at h
  | .ninf, .inf, _ => fun _ h => by simp [Flt.lt] at h
  | .inf, _, _ => fun h _ => by simp [Flt.lt] at h
  | .fin _, .ninf, _ => fun h _ => by simp [Flt.lt] at h
  | .fin _, .inf, .fin _ => fun _ h => by simp [Flt.lt] at h
  | .fin _, .inf, .ninf => fun _ h => by simp [Flt.lt] at h
  | .ninf, .fin _, .ninf => fun _ h => by simp [Flt.lt] at h
  | .fin _, .inf, .inf => fun _ h => by simp [Flt.lt] at h
  | .fin _, .fin _, .ninf => fun _ h => by simp [Flt.lt] at h

theorem Flt.eq_of_not_lt : ∀ {a b : Flt},
    Flt.lt a b = false → Flt.lt b a = false → a = b
  | .fin _, .fin _ => by
    simp only [Flt.lt, decide_eq_false_iff_not, not_lt, Flt.fin.injEq]
    exact fun h h2 => le_antisymm h2 h
  | .inf, .inf => fun _ _ => rfl
  | .ninf, .ninf => fun _ _ => rfl
  | .fin _, .inf => fun h _ => by simp [Flt.lt] at h
  | .inf, .fin _ => fun _ h => by simp [Flt.lt] at h
  | .ninf, .fin _ => fun h _ => by simp [Flt.lt] at h
  | .fin _, .ninf => fun _ h => by simp [Flt.lt] at h
  | .ninf, .inf => fun h _ => by simp [Flt.lt] at h
  | .inf, .ninf => fun _ h => by simp [Flt.lt] at h

theorem keyLt_irr (a : Flt × Flt) : keyLt a a = false := by
  simp [keyLt, Flt.lt_irr]

theorem keyLt_asymm {a b : Flt × Flt} (h : keyLt a b = true) :
    keyLt b a = false := by
  unfold keyLt at *
  by_cases h1 : a.1 = b.1
  · simp only [h1, if_pos rfl] at h
    simp [h1.symm, Flt.lt_asymm_bool h]
  · rw [if_neg h1] at h
    rw [if_neg (fun hh => h1 hh.symm)]
    exact Flt.lt_asymm_bool h

theorem keyLt_trans {a b c : Flt × Flt} (h1 : keyLt a b = true)
    (h2 : keyLt b c = true) : keyLt a c = true := by
  unfold keyLt at *
  by_cases e1 : a.1 = b.1 <;> by_cases e2 : b.1 = c.1
  · rw [if_pos e1] at h1; rw [if_pos e2] at h2
    rw [if_pos (e1.trans e2)]
    exact Flt.lt_trans_bool h1 h2
  · rw [if_pos e1] at h1; rw [if_neg e2] at h2
    rw [if_neg (fun hh => e2 (e1.symm.trans hh)), e1]
    exact h2
  · rw [if_neg e1] at h1; rw [if_pos e2] at h2
    rw [if_neg (fun hh => e1 (hh.trans e2.symm)), ← e2]
    exact h1
  · rw [if_neg e1] at h1; rw [if_neg e2] at h2
    have hac : Flt.lt a.1 c.1 = true := Flt.lt_trans_bool h1 h2
    have : a.1 ≠ c.1 := by
      intro hh
      have h3 : Flt.lt b.1 a.1 = true := by rw [hh]; exact h2
      rw [Flt.lt_asymm_bool h1] at h3
      exact Bool.false_ne_true h3
    rw [if_neg this]
    exact hac

theorem keyLt_conn {a b : Flt × Flt} (h1 : keyLt a b = false)
    (h2 : keyLt b a = false) : a = b := by
  unfold keyLt at *
  by_cases e1 : a.1 = b.1
  · rw [if_pos e1] at h1
    rw [if_pos e1.symm] at h2
    exact Prod.ext e1 (Flt.eq_of_not_lt h1 h2)
  · rw [if_neg e1] at h1
    rw [if_neg (fun hh => e1 hh.symm)] at h2
    exact absurd (Flt.eq_of_not_lt h1 h2) e1

/-! ### Correctness of the stable descending sort -/

theorem insDesc_perm (k : α → Flt × Flt) (x : α) :
    ∀ l : List α, (insDesc k x l).Perm (x :: l)
  | [] => List.Perm.refl _
  | y :: ys => by
    unfold insDesc
    split
    · exact List.Perm.refl _
    · exact ((insDesc_perm k x ys).cons y).trans (List.Perm.swap x y ys)

theorem insDesc_pairwise {k : α → Flt × Flt} {x : α} :
    ∀ {l : List α}, l.Pairwise (keyGE k) → (insDesc k x l).Pairwise (keyGE k)
  | [], _ => by simp [insDesc]
  | y :: ys, hl => by
    rcases List.pairwise_cons.mp hl with ⟨hy, hys⟩
    unfold insDesc
    split
    · rename_i hlt
      refine List.pairwise_cons.mpr ⟨?_, hl⟩
      intro z hz
      rcases List.mem_cons.mp hz with rfl | hz
      · exact keyLt_asymm hlt
      · show keyLt (k x) (k z) = false
        cases hxz : keyLt (k x) (k z) with
        | false => rfl
        | true =>
          have := keyLt_trans hlt hxz
          rw [hy z hz] at this
          exact absurd this Bool.false_ne_true
    · rename_i hnlt
      refine List.pairwise_cons.mpr ⟨?_, insDesc_pairwise hys⟩
      intro z hz
      rcases List.mem_cons.mp ((insDesc_perm k x ys).mem_iff.mp hz) with rfl | hz
      · exact Bool.eq_false_iff.mpr hnlt
      · exact hy z hz

theorem insDesc_filter {k : α → Flt × Flt} {x : α} (c : Flt × Flt) :
    ∀ {l : List α}, l.Pairwise (keyGE k) →
      (insDesc k x l).filter (fun a => decide (k a = c)) =
        l.filter (fun a => decide (k a = c)) ++
          (if k x = c then [x] else [])
  | [], _ => by
    simp only [insDesc, List.filter, List.nil_append]
    split <;> rename_i h <;> simp at h <;> simp [h]
  | y :: ys, hl => by
    rcases List.pairwise_cons.mp hl with ⟨hy, hys⟩
    unfold insDesc
    split
    · rename_i hlt
      by_cases hx : k x = c
      · have hnil : (y :: ys).filter (fun a => decide (k a = c)) = [] := by
          refine List.filter_eq_nil_iff.mpr ?_
          intro z hz
          simp only [decide_eq_true_eq]
          intro hzc
          rcases List.mem_cons.mp hz with rfl | hz
          · rw [hzc, ← hx] at hlt
            rw [keyLt_irr] at hlt
            exact Bool.false_ne_true hlt
          · have hzy : keyLt (k y) (k z) = false := hy z hz
            rw [hzc, ← hx] at hzy
            rw [hzy] at hlt
            exact Bool.false_ne_true hlt
        rw [List.filter_cons_of_pos (by simp [hx]), hnil, if_pos hx,
          List.nil_append]
      · rw [List.filter_cons_of_neg (by simp [hx]), if_neg hx,
          List.append_nil]
    · rename_i hnlt
      rw [List.filter_cons, List.filter_cons]
      split
      · rw [List.cons_append, insDesc_filter c hys]
      · exact insDesc_filter c hys

theorem sortFold_pairwise {k : α → Flt × Flt} :
    ∀ (l acc : List α), acc.Pairwise (keyGE k) →
      (l.foldl (fun acc x => insDesc k x acc) acc).Pairwise (keyGE k)
  | [], _, h => h
  | _ :: xs, _, h => sortFold_pairwise xs _ (insDesc_pairwise h)

theorem sortFold_perm {k : α → Flt × Flt} :
    ∀ (l acc : List α),
      (l.foldl (fun acc x => insDesc k x acc) acc).Perm (acc ++ l)
  | [], _ => by simp
  | x :: xs, acc => by
    refine (sortFold_perm xs (insDesc k x acc)).trans ?_
    refine (((insDesc_perm k x acc).append_right xs).trans ?_)
    exact List.perm_middle.symm

theorem sortFold_filter {k : α → Flt × Flt} (c : Flt × Flt) :
    ∀ (l acc : List α), acc.Pairwise (keyGE k) →
      (l.foldl (fun acc x => insDesc k x acc) acc).filter
          (fun a => decide (k a = c)) =
        acc.filter (fun a => decide (k a = c)) ++
          l.filter (fun a => decide (k a = c))
  | [], acc, _ => by simp
  | x :: xs, acc, h => by
    rw [List.foldl_cons, sortFold_filter c xs _ (insDesc_pairwise h),
      insDesc_filter c h, List.filter_cons]
    by_cases hx : k x = c
    · simp [hx]
    · simp [hx]

theorem pySortDescBy_pairwise (k : α → Flt × Flt) (l : List α) :
    (pySortDescBy k l).Pairwise (keyGE k) :=
  sortFold_pairwise l [] (List.Pairwise.nil)

theorem pySortDescBy_perm (k : α → Flt × Flt) (l : List α) :
    (pySortDescBy k l).Perm l := by
  have h := sortFold_perm (k := k) l []
  rw [List.nil_append] at h
  exact h

theorem pySortDescBy_filter (k : α → Flt × Flt) (l : List α)
    (c : Flt × Flt) :
    (pySortDescBy k l).filter (fun a => decide (k a = c)) =
      l.filter (fun a => decide (k a = c)) := by
  have h := sortFold_filter (k := k) c l [] (List.Pairwise.nil)
  rw [List.filter_nil, List.nil_append] at h
  exact h

/-! ### Claim theorems -/

/-- C1: for every metrics value with a numeric transaction count,
`looks_like_memecoin` returns `True` exactly when all four threshold
checks hold, and making any single comparison false forces the overall
result `False`. -/
theorem c1_isEligible_iff (m : Metrics) (t : Flt)
    (h : pyNumVal m.txs = some t) :
    (looks_like_memecoin m = some true ↔
      (Flt.le (.fin MIN_LIQ_USD) m.liq = true ∧
       Flt.le (.fin MIN_1H_TXNS) t = true ∧
       Flt.le m.fdv (.fin MAX_FDV_USD) = true ∧
       Flt.le m.age (.fin MAX_POOL_AGE_HOURS) = true))
    ∧ (Flt.le (.fin MIN_LIQ_USD) m.liq = false →
        looks_like_memecoin m = some false)
    ∧ (Flt.le (.fin MIN_1H_TXNS) t = false →
        looks_like_memecoin m = some false)
    ∧ (Flt.le m.fdv (.fin MAX_FDV_USD) = false →
        looks_like_memecoin m = some false)
    ∧ (Flt.le m.age (.fin MAX_POOL_AGE_HOURS) = false →
        looks_like_memecoin m = some false) := by
  have heval : looks_like_memecoin m =
      if Flt.le (.fin MIN_LIQ_USD) m.liq then
        some (Flt.le (.fin MIN_1H_TXNS) t && Flt.le m.fdv (.fin MAX_FDV_USD) &&
          Flt.le m.age (.fin MAX_POOL_AGE_HOURS))
      else some false := by
    unfold looks_like_memecoin
    rw [h]
  cases h1 : Flt.le (.fin MIN_LIQ_USD) m.liq <;>
    cases h2 : Flt.le (.fin MIN_1H_TXNS) t <;>
      cases h3 : Flt.le m.fdv (.fin MAX_FDV_USD) <;>
        cases h4 : Flt.le m.age (.fin MAX_POOL_AGE_HOURS) <;>
          simp [heval, h1, h2, h3, h4]

/-- Witness for C1 at a concrete eligible metrics value and concrete
single-flip failures. -/
theorem c1_witness :
    looks_like_memecoin ⟨.fin 1000000, .fin 5000, .int 30, .fin 2⟩ =
      some true
    ∧ looks_like_memecoin ⟨.fin 1000000, .fin 100, .int 30, .fin 2⟩ =
      some false := by
  constructor
  · exact (c1_isEligible_iff ⟨.fin 1000000, .fin 5000, .int 30, .fin 2⟩
      (.fin 30) rfl).1.mpr ⟨rfl, rfl, rfl, rfl⟩
  · exact (c1_isEligible_iff ⟨.fin 1000000, .fin 100, .int 30, .fin 2⟩
      (.fin 30) rfl).2.1 rfl

/-- C4: `usd` never raises (it is total), maps `None` and every
unparsable value to `0.0`, and returns the parsed float of every value
`float()` accepts. -/
theorem c4_usd_total_spec :
    usd Py.none = .fin 0
    ∧ (∀ x : Py, pyFloat x = Option.none → usd x = .fin 0)
    ∧ (∀ (x : Py) (v : Flt), pyFloat x = some v → usd x = v) := by
  refine ⟨rfl, ?_, ?_⟩
  · intro x h
    unfold usd
    split
    · rw [h]; rfl
    · rfl
  · intro x v h
    unfold usd
    split
    · rw [h]; rfl
    · rename_i hb
      rw [Bool.not_eq_true] at hb
      cases x with
      | none => exact absurd h (by simp [pyFloat])
      | bool b =>
        cases b
        · simp only [pyFloat, Option.some.injEq] at h
          simpa using h
        · simp [pyBool] at hb
      | int n =>
        simp only [pyBool, decide_eq_false_iff_not, not_not] at hb
        subst hb
        simp only [pyFloat, Option.some.injEq] at h
        simpa using h
      | float f =>
        simp only [pyBool, decide_eq_false_iff_not, not_not] at hb
        subst hb
        simp only [pyFloat, Option.some.injEq] at h
        exact h.symm ▸ rfl
      | str s =>
        simp only [pyBool, decide_eq_false_iff_not, not_not] at hb
        subst hb
        rw [show pyFloat (Py.str "") = Option.none from rfl] at h
        exact Option.noConfusion h
      | list xs => exact absurd h (by simp [pyFloat])
      | dict kvs => exact absurd h (by simp [pyFloat])

/-- Witness for C4 at a parsable string, an unparsable string and
`None`. -/
theorem c4_witness :
    usd (.str "5000") = .fin 5000 ∧ usd (.str "junk") = .fin 0 ∧
      usd Py.none = .fin 0 :=
  ⟨c4_usd_total_spec.2.2 (.str "5000") (.fin 5000) rfl,
   c4_usd_total_spec.2.1 (.str "junk") rfl,
   c4_usd_total_spec.1⟩

/-- C5 counterexample: a parsable timestamp one hour in the future of
`now = 0` yields the negative value `-1.0`, which is neither a
nonnegative number of hours nor positive infinity, refuting the claimed
`>= 0 or +inf` range. -/
theorem c5_counterexample :
    hours_since 0 (.str "1970-01-01T01:00:00Z") = .fin (-1)
    ∧ Flt.le (.fin 0) (.fin (-1)) = false
    ∧ Flt.fin (-1) ≠ Flt.inf := by
  refine ⟨rfl, rfl, fun h => Flt.noConfusion h⟩

/-- C5 amended: `hours_since` always returns a real number of elapsed
hours (negative when the timestamp lies in the future) or positive
infinity; every `None` or unparsable timestamp yields positive
infinity, and an infinite age always fails the freshness check of the
eligibility filter. -/
theorem c5_hours_spec (now : ℚ) :
    hours_since now Py.none = Flt.inf
    ∧ (∀ s, isoparse s = Option.none → hours_since now (.str s) = Flt.inf)
    ∧ (∀ x : Py, (∃ q, hours_since now x = .fin q) ∨
        hours_since now x = Flt.inf)
    ∧ (∀ m : Metrics, m.age = Flt.inf →
        looks_like_memecoin m ≠ some true) := by
  refine ⟨rfl, ?_, ?_, ?_⟩
  · intro s h
    simp [hours_since, h]
  · intro x
    cases x with
    | str s =>
      cases hp : isoparse s with
      | none => exact Or.inr (by simp [hours_since, hp])
      | some r =>
        exact Or.inl ⟨(now - epochSeconds r.1 (r.2.getD 0)) / 3600,
          by simp [hours_since, hp]⟩
    | none => exact Or.inr rfl
    | bool b => exact Or.inr rfl
    | int n => exact Or.inr rfl
    | float f => exact Or.inr rfl
    | list xs => exact Or.inr rfl
    | dict kvs => exact Or.inr rfl
  · intro m hage
    unfold looks_like_memecoin
    split
    · cases hnum : pyNumVal m.txs with
      | none => simp
      | some t =>
        rw [hage]
        simp [Flt.le]
    · simp

/-- Witness for C5 at concrete inputs. -/
theorem c5_witness :
    hours_since 7 (.str "zzz") = Flt.inf
    ∧ looks_like_memecoin ⟨.fin 0, .fin 5000, .int 30, Flt.inf⟩ ≠
        some true :=
  ⟨(c5_hours_spec 7).2.1 "zzz" rfl,
   (c5_hours_spec 7).2.2.2 ⟨.fin 0, .fin 5000, .int 30, Flt.inf⟩ rfl⟩

/-- C9 counterexample: a response envelope whose pool-list field is
present but malformed (`"data": 5`) makes the scan raise a `TypeError`
instead of treating the list as empty and returning the placeholder. -/
theorem c9_counterexample :
    scan_geckoterminal 0 (.dict [("data", .int 5)]) = Option.none := rfl

/-- C9 amended: when the pool-list field is absent from the envelope the
scan treats the record list as empty and returns the placeholder; a
present but non-iterable value for the field, however, raises. -/
theorem c9_absent_data_placeholder (now : ℚ) (kvs : List (String × Py))
    (h : pyDictGet kvs "data" = Option.none) :
    scan_geckoterminal now (.dict kvs) = some ["(no candidates found)"] := by
  unfold scan_geckoterminal scanResults
  simp [pyGet, h, pyIter, collectEligible, pySortDescBy]

/-- Witness for C9 at a concrete envelope lacking the `data` field. -/
theorem c9_witness :
    scan_geckoterminal 0 (.dict [("meta", Py.none)]) =
      some ["(no candidates found)"] :=
  c9_absent_data_placeholder 0 [("meta", Py.none)] rfl

/-- C10: a parsable timestamp without a timezone offset yields exactly
the age of the same instant with UTC specified explicitly. -/
theorem c10_naive_utc (now : ℚ) (s t : String) (d : DT)
    (hs : isoparse s = some (d, Option.none))
    (ht : isoparse t = some (d, some 0)) :
    hours_since now (.str s) = hours_since now (.str t) := by
  simp [hours_since, hs, ht]

/-- Witness for C10: the same timestamp written without an offset and
with an explicit `Z`. -/
theorem c10_witness :
    hours_since 90000 (.str "1970-01-02T00:00:00") =
      hours_since 90000 (.str "1970-01-02T00:00:00Z") :=
  c10_naive_utc 90000 "1970-01-02T00:00:00" "1970-01-02T00:00:00Z"
    ⟨1970, 1, 2, 0, 0, 0, 0⟩ rfl rfl

/-! ### Helper lemmas -/

theorem pyAdd_num {a b : Py} (ha : (pyNumVal a).isSome = true)
    (hb : (pyNumVal b).isSome = true) :
    ∃ c, pyAdd a b = some c ∧ (pyNumVal c).isSome = true := by
  cases a <;> cases b <;> try exact ⟨_, rfl, rfl⟩
  all_goals simp [pyNumVal] at ha hb

theorem searchLines_cons_skip (p : Py) (ps : List Py)
    (h : chainMatch p = some false) :
    searchLines (p :: ps) = searchLines ps := by
  conv_lhs => unfold searchLines
  simp [h]

theorem searchLines_skip (pre post : List Py) (p : Py)
    (h : chainMatch p = some false) :
    searchLines (pre ++ p :: post) = searchLines (pre ++ post) := by
  induction pre with
  | nil => simpa using searchLines_cons_skip p post h
  | cons q qs ih =>
    simp only [List.cons_append]
    cases hq : chainMatch q with
    | none => simp [searchLines, hq]
    | some b =>
      cases b
      · simp [searchLines, hq, ih]
      · simp [searchLines, hq, ih]

theorem searchLines_eq_spec : ∀ items : List Py,
    (∀ p ∈ items, isDictB p = true) →
    searchLines items = searchLinesSpec items
  | [], _ => rfl
  | p :: ps, h => by
    have hp := h p (List.mem_cons_self p ps)
    have ih := searchLines_eq_spec ps
      (fun q hq => h q (List.mem_cons_of_mem p hq))
    cases p with
    | dict kvs =>
      have hcm : chainMatch (.dict kvs) = some (chainMatchB (.dict kvs)) := by
        simp [chainMatch, chainMatchB, pyGet]
      cases hb : chainMatchB (.dict kvs) with
      | false =>
        rw [searchLines_cons_skip _ _ (by rw [hcm, hb]), ih]
        simp [searchLinesSpec, List.filter_cons, hb]
      | true =>
        have hsl : searchLines (Py.dict kvs :: ps) =
            (searchLineOf (Py.dict kvs)).bind fun line =>
              (searchLines ps).bind fun rest => some (line :: rest) := by
          conv_lhs => unfold searchLines
          rw [hcm]
          simp [hb]
        rw [hsl, ih]
        simp only [searchLinesSpec, List.filter_cons, hb, if_true]
        cases hl : searchLineOf (Py.dict kvs) <;>
          cases hr : mapExtract (List.filter chainMatchB ps) <;>
            simp [mapExtract, hl, hr]
    | none => simp [isDictB] at hp
    | bool b => simp [isDictB] at hp
    | int n => simp [isDictB] at hp
    | float x => simp [isDictB] at hp
    | str t => simp [isDictB] at hp
    | list xs => simp [isDictB] at hp

theorem searchLines_all_skip : ∀ items : List Py,
    (∀ p ∈ items, chainMatch p = some false) → searchLines items = some []
  | [], _ => rfl
  | p :: ps, h => by
    rw [searchLines_cons_skip p ps (h p (List.mem_cons_self p ps))]
    exact searchLines_all_skip ps fun q hq => h q (List.mem_cons_of_mem p hq)

/-- C6 counterexample: a record whose `buys_1h` is a truthy non-numeric
string makes `summarize_pool` raise a `TypeError` rather than succeed,
and a record whose `fdv_usd` parses to a negative number yields a
negative `fdv`, refuting both the total-success and the nonnegativity
parts of the claim. -/
theorem c6_counterexample :
    summarize_pool 0 (.dict [("attributes", .dict [("buys_1h", .str "x")])]) =
      Option.none
    ∧ (summarize_pool 0 (.dict [("attributes",
          .dict [("fdv_usd", .str "-5")])])).map (fun r => r.2.fdv) =
        some (.fin (-5))
    ∧ Flt.le (.fin 0) (.fin (-5)) = false :=
  ⟨rfl, rfl, rfl⟩

/-- C6 amended: whenever the record is a dict whose `attributes` value
(or its absence default) is a dict and whose `buys_1h`/`sells_1h` fields
are absent, falsy or numeric, `summarize_pool` succeeds and yields
metrics in which every field is populated and numeric: `fdv` and `liq`
are the `usd` normalizations of their source fields (hence 0 when those
are absent, null, empty or unparsable), `txs` is numeric, and `age` is
the `hours_since` value of the timestamp field (so +inf on any parse
failure). -/
theorem c6_summarize_spec (now : ℚ) (p : Py) (akvs : List (String × Py))
    (hattr : pyGet p "attributes" (.dict []) = some (.dict akvs))
    (hb : (pyNumVal (orZero (getAttr akvs "buys_1h"))).isSome = true)
    (hs : (pyNumVal (orZero (getAttr akvs "sells_1h"))).isSome = true) :
    ∃ text m, summarize_pool now p = some (text, m)
      ∧ m.fdv = usd (getAttr akvs "fdv_usd")
      ∧ m.liq = usd (getAttr akvs "reserve_in_usd")
      ∧ (pyNumVal m.txs).isSome = true
      ∧ m.age = hours_since now (getAttr akvs "pool_created_at") := by
  obtain ⟨c, hc, hcn⟩ := pyAdd_num hb hs
  unfold summarize_pool
  simp only [hattr, hc]
  exact ⟨_, _, rfl, rfl, rfl, hcn, rfl⟩

/-- Witness for C6 at a concrete sparse record. -/
theorem c6_witness :
    ∃ text m, summarize_pool 5
        (.dict [("attributes", .dict [("buys_1h", .int 3)])]) =
        some (text, m)
      ∧ m.fdv = usd (getAttr [("buys_1h", .int 3)] "fdv_usd")
      ∧ m.liq = usd (getAttr [("buys_1h", .int 3)] "reserve_in_usd")
      ∧ (pyNumVal m.txs).isSome = true
      ∧ m.age = hours_since 5 (getAttr [("buys_1h", .int 3)] "pool_created_at") :=
  c6_summarize_spec 5 (.dict [("attributes", .dict [("buys_1h", .int 3)])])
    [("buys_1h", .int 3)] rfl rfl rfl

/-- C7 counterexample: on the search path a record that is well-formed
except for a missing `priceUsd` (a missing numeric field) makes the
per-record extraction raise (`float(None)`), and the exception escapes
`search` to the caller. -/
theorem c7_counterexample :
    searchLineOf missingPriceRec = Option.none
    ∧ search (.dict [("pairs", .list [missingPriceRec])]) = Option.none :=
  ⟨rfl, rfl⟩

/-- C7 amended: the numeric and timestamp fields that are parsed through
`usd`/`hours_since` (`fdv_usd`, `reserve_in_usd`, `price_in_usd`,
`pool_created_at` on the scan path; `liquidity.usd` on the search path)
are recovered locally with safe defaults for every possible value and
never raise; but the search path parses `priceUsd` with a bare `float()`
and indexes the token symbols directly, so those fields are not
recovered (see the counterexample). -/
theorem c7_field_recovery (now : ℚ) (fdvv liqv pricev tsv lv : Py) :
    (∃ text m, summarize_pool now (.dict [("attributes", .dict [
          ("fdv_usd", fdvv), ("reserve_in_usd", liqv),
          ("price_in_usd", pricev), ("pool_created_at", tsv)])]) =
        some (text, m)
      ∧ m.fdv = usd fdvv ∧ m.liq = usd liqv ∧ m.age = hours_since now tsv)
    ∧ (∃ line, searchLineOf (.dict [("chainId", .str "pulsechain"),
        ("baseToken", .dict [("symbol", .str "AAA")]),
        ("quoteToken", .dict [("symbol", .str "BBB")]),
        ("priceUsd", .int 1),
        ("liquidity", .dict [("usd", lv)])]) = some line) := by
  constructor
  · exact ⟨_, _, rfl, rfl, rfl, rfl⟩
  · exact ⟨_, rfl⟩

/-- C2 counterexample: the example records A(tx=50, liq=100),
B(tx=50, liq=200), C(tx=10, liq=500) are all ineligible under the fixed
thresholds (liquidity below 3000, and C also below the transaction
minimum), so the scan returns the placeholder instead of the reports
[B, A, C]. -/
theorem c2_counterexample :
    scan_geckoterminal 93600 dataABC = some ["(no candidates found)"] :=
  rfl

/-- C2 amended: the scan orders the surviving reports in descending
lexicographic order of (txCount1h, liquidity) — transaction count
primary, liquidity tie-break — the sorted list is a permutation of the
eligible records and the sort is stable (records with equal keys keep
source order); the claimed example records are not eligible, but for
the eligible analogues A(tx=50, liq=3100), B(tx=50, liq=3200),
C(tx=25, liq=5000) the output order is [B, A, C]. -/
theorem c2_sort_spec :
    (∀ (now : ℚ) (data pools : Py) (items : List Py)
        (pre res : List (Metrics × String)),
      pyGet data "data" (.list []) = some pools →
      pyIter pools = some items →
      collectEligible now items = some pre →
      scanResults now data = some res →
      (res.Perm pre
        ∧ res.Pairwise (keyGE sortKey)
        ∧ ∀ c, res.filter (fun x => decide (sortKey x = c)) =
            pre.filter (fun x => decide (sortKey x = c))))
    ∧ (scanResults 93600 dataABC2).map (fun l => l.map Prod.fst) =
        some [mB2, mA2, mC2] := by
  constructor
  · intro now data pools items pre res h1 h2 h3 h4
    have hres : res = pySortDescBy sortKey pre := by
      simp [scanResults, h1, h2, h3] at h4
      exact h4.symm
    subst hres
    exact ⟨pySortDescBy_perm sortKey pre, pySortDescBy_pairwise sortKey pre,
      fun c => pySortDescBy_filter sortKey pre c⟩
  · rfl

/-- Witness for C2: the sorted results of the concrete analogue scan
are a permutation of its eligible records and are sorted on the key. -/
theorem c2_witness :
    resABC2.Perm preABC2 ∧ resABC2.Pairwise (keyGE sortKey) := by
  have h := c2_sort_spec.1 93600 dataABC2 poolsABC2 [recA2, recB2, recC2]
    preABC2 resABC2 rfl rfl rfl rfl
  exact ⟨h.1, h.2.1⟩

/-- C3: whenever the scan pipeline succeeds it returns `min(n, 10)`
report strings for `n >= 1` eligible records, the single placeholder
for `n = 0`, and never an empty sequence. -/
theorem c3_scan_length (now : ℚ) (data : Py) (res : List (Metrics × String))
    (h : scanResults now data = some res) :
    ∃ out, scan_geckoterminal now data = some out
      ∧ out ≠ []
      ∧ (res = [] → out = ["(no candidates found)"])
      ∧ (1 ≤ res.length → out.length = min res.length 10) := by
  by_cases hres : res = []
  · subst hres
    refine ⟨["(no candidates found)"], ?_, by simp, fun _ => rfl, by simp⟩
    unfold scan_geckoterminal
    simp [h]
  · have hne : (res.map Prod.snd).take 10 ≠ [] := by
      simp [List.take_eq_nil_iff, hres]
    refine ⟨(res.map Prod.snd).take 10, ?_, hne, fun hc => absurd hc hres,
      fun _ => ?_⟩
    · unfold scan_geckoterminal
      have hie : ((res.map Prod.snd).take 10).isEmpty = false := by
        simpa [List.isEmpty_iff] using hne
      simp [h, hie]
    · rw [List.length_take, List.length_map, Nat.min_comm]

/-- Witness for C3: fifteen eligible records yield exactly ten
reports. -/
theorem c3_witness :
    ∃ out, scan_geckoterminal 93600 data15 = some out ∧ out ≠ []
      ∧ out.length = min 15 10 := by
  obtain ⟨out, h1, h2, _, h4⟩ := c3_scan_length 93600 data15 res15 rfl
  have hlen : res15.length = 15 := rfl
  refine ⟨out, h1, h2, ?_⟩
  rw [h4 (by rw [hlen]; exact Nat.le_of_lt (by norm_num)), hlen]

/-- C8: the search path skips every record whose chain identifier is not
a PulseChain identifier; on dict records it coincides with the spec-side
pipeline (filter to the chain, extract each survivor in source order);
the reply truncates to the first ten matching lines in source order and
degenerates to the single placeholder when nothing matches; and a
matching record failing every eligibility threshold is still listed —
the Eligibility Filter is not applied. -/
theorem c8_search_spec :
    (∀ (pre post : List Py) (p : Py), chainMatch p = some false →
      searchLines (pre ++ p :: post) = searchLines (pre ++ post))
    ∧ (∀ items : List Py, (∀ p ∈ items, isDictB p = true) →
        searchLines items = searchLinesSpec items)
    ∧ (∀ (js pairs : Py) (items : List Py) (lines : List String),
        pyGet js "pairs" (.list []) = some pairs →
        pyIter pairs = some items →
        searchLines items = some lines →
        search js = some (if lines.isEmpty then
          ["(no PulseChain results found)"] else lines.take 10))
    ∧ (∀ (js pairs : Py) (items : List Py),
        pyGet js "pairs" (.list []) = some pairs →
        pyIter pairs = some items →
        (∀ p ∈ items, chainMatch p = some false) →
        search js = some ["(no PulseChain results found)"])
    ∧ (looks_like_memecoin ⟨.fin 0, .fin 0, .int 0, .fin 2⟩ = some false
       ∧ ∃ line, search (.dict [("pairs", .list [lowLiqRec])]) = some [line]
         ∧ line ≠ "(no PulseChain results found)") := by
  refine ⟨searchLines_skip, searchLines_eq_spec, ?_, ?_, rfl, ?_⟩
  · intro js pairs items lines h1 h2 h3
    unfold search
    simp [h1, h2, h3]
  · intro js pairs items h1 h2 h3
    unfold search
    simp [h1, h2, searchLines_all_skip items h3]
  · exact ⟨_, rfl, by decide⟩

/-- Witness for C8: a non-PulseChain record is skipped, and an envelope
with only non-PulseChain records yields the placeholder. -/
theorem c8_witness :
    searchLines [ethRec, pulseRec] = searchLines [pulseRec]
    ∧ search (.dict [("pairs", .list [ethRec])]) =
        some ["(no PulseChain results found)"] := by
  constructor
  · exact c8_search_spec.1 [] [pulseRec] ethRec rfl
  · exact c8_search_spec.2.2.2.1 (.dict [("pairs", .list [ethRec])])
      (.list [ethRec]) [ethRec] rfl rfl
      (by
        intro p hp
        rw [List.mem_singleton] at hp
        subst hp
        rfl)

end MemecoinBot
